import Mathlib

/-!
Verification development for the `c2e` C-declaration explainer.

The definitions below are a shallow embedding of the program's core library
(`src/lib/src`): the AST model (`ast.rs`), the tagged-segment text model
(`color/mod.rs`), the explanation algorithm (`explainer.rs`) and the
combinator parser (`parser.rs`, `parser/error.rs`).  The parser is written
against the `chumsky` combinator library; the embedding models the behaviour
of the exact combinators the program uses (ordered backtracking choice,
padding, labelled regions, `separated_by`/`allow_trailing` iteration, and the
furthest-position "alt" error that `Rich` errors implement), with positions as
byte offsets into the source string.  Machine integers (`usize` array sizes)
are modelled as `Nat` with an explicit 64-bit bound.
-/

set_option maxRecDepth 40000

set_option maxHeartbeats 4000000

namespace C2e

/-- Plurality of the phrase being built (`explainer.rs`). -/
inductive Plurality
  | Singular
  | Plural
deriving DecidableEq, Repr

/-- Semantic highlight tags for explanation segments (`color/mod.rs`).  The
`QuasiKeyword` variant is used throughout `explainer.rs`; its declaration is
missing from the snapshot's `color/mod.rs` and is modelled from the spec's tag
list `{None, Qualifier, PrimitiveType, UserDefinedType, Ident, Number, QuasiKeyword}`. -/
inductive Highlight
  | None
  | Qualifier
  | PrimitiveType
  | UserDefinedType
  | Ident
  | Number
  | QuasiKeyword
deriving DecidableEq, Repr

/-- A piece of text with a single highlight (`HighlightedTextSegment`). -/
structure HighlightedTextSegment where
  text : String
  highlight : Highlight
deriving DecidableEq, Repr

/-- A sequence of highlighted segments (`HighlightedText` wraps a `Vec`). -/
abbrev HighlightedText := List HighlightedTextSegment

/-- The `HighlightedText::push_str` method: appends to the last segment when it
has no highlight, otherwise pushes a fresh unhighlighted segment. -/
def pushStr (msg : HighlightedText) (text : String) : HighlightedText :=
  match msg.getLast? with
  | some last =>
    if last.highlight = Highlight.None then
      msg.dropLast ++ [⟨last.text ++ text, Highlight.None⟩]
    else
      msg ++ [⟨text, Highlight.None⟩]
  | none => [⟨text, Highlight.None⟩]

/-- Concatenated text of a `HighlightedText`, ignoring the tags (what a plain
formatter renders). -/
def toText (msg : HighlightedText) : String :=
  msg.foldl (fun acc s => acc ++ s.text) ""

/-- Type qualifier (`ast.rs`).  The `Typedef` bookkeeping variant is used by
`parser.rs` and `explainer.rs`; its declaration is absent from the snapshot's
`ast.rs` and is modelled from the spec's qualifier set
`{Const, Volatile, Restrict, Typedef}` with `Typedef` as the last bit. -/
inductive TypeQualifier
  | Const
  | Volatile
  | Restrict
  | Typedef
deriving DecidableEq, Repr

/-- Bit set of type qualifiers (`TypeQualifiers` wraps `BitFlags<TypeQualifier>`):
one Boolean per flag, in declaration (bit) order Const, Volatile, Restrict, Typedef. -/
structure TypeQualifiers where
  const : Bool
  volatile : Bool
  restrict : Bool
  tdef : Bool
deriving DecidableEq, Repr

/-- The empty qualifier set (`TypeQualifiers::default`). -/
def TypeQualifiers.empty : TypeQualifiers := ⟨false, false, false, false⟩

/-- BitFlags insertion (used both by `Container::push` and the typedef branch). -/
def TypeQualifiers.insert (q : TypeQualifiers) : TypeQualifier → TypeQualifiers
  | .Const => { q with const := true }
  | .Volatile => { q with volatile := true }
  | .Restrict => { q with restrict := true }
  | .Typedef => { q with tdef := true }

/-- BitFlags membership test (`contains`). -/
def TypeQualifiers.contains (q : TypeQualifiers) : TypeQualifier → Bool
  | .Const => q.const
  | .Volatile => q.volatile
  | .Restrict => q.restrict
  | .Typedef => q.tdef

/-- BitFlags removal (`remove`, used by `explain_typedef`). -/
def TypeQualifiers.remove (q : TypeQualifiers) : TypeQualifier → TypeQualifiers
  | .Const => { q with const := false }
  | .Volatile => { q with volatile := false }
  | .Restrict => { q with restrict := false }
  | .Typedef => { q with tdef := false }

/-- BitFlags emptiness test (`is_empty`). -/
def TypeQualifiers.isEmpty (q : TypeQualifiers) : Bool :=
  !(q.const || q.volatile || q.restrict || q.tdef)

/-- Display name of one qualifier: `parse_display` style "title case" renders
the variant name as lowercase words. -/
def TypeQualifier.name : TypeQualifier → String
  | .Const => "const"
  | .Volatile => "volatile"
  | .Restrict => "restrict"
  | .Typedef => "typedef"

/-- The flags present in a qualifier set, in ascending bit order — the order in
which `BitFlags::iter` yields them. -/
def TypeQualifiers.flags (q : TypeQualifiers) : List TypeQualifier :=
  (if q.const then [TypeQualifier.Const] else []) ++
  (if q.volatile then [TypeQualifier.Volatile] else []) ++
  (if q.restrict then [TypeQualifier.Restrict] else []) ++
  (if q.tdef then [TypeQualifier.Typedef] else [])

/-- The `Display` impl for `TypeQualifiers`: flags joined by single spaces in
bit-iteration order. -/
def TypeQualifiers.display (q : TypeQualifiers) : String :=
  String.intercalate " " (q.flags.map TypeQualifier.name)

/-- Collecting parsed qualifiers into the set: the `Container<TypeQualifier>`
impl pushes each encountered qualifier with `insert`, starting from the
default (empty) set. -/
def TypeQualifiers.collect (l : List TypeQualifier) : TypeQualifiers :=
  l.foldl TypeQualifiers.insert TypeQualifiers.empty

/-- Record kind (`ast.rs`). -/
inductive RecordKind
  | Union
  | Struct
  | Enum
deriving DecidableEq, Repr

/-- Display of a record kind ("title case" = lowercase). -/
def RecordKind.display : RecordKind → String
  | .Union => "union"
  | .Struct => "struct"
  | .Enum => "enum"

/-- The `RecordKind::from_str` used by the parser on the matched keyword; total
on the three keywords the parser feeds it. -/
def RecordKind.fromKeyword (s : String) : RecordKind :=
  if s = "union" then .Union else if s = "enum" then .Enum else .Struct

/-- The AST `Type` (renamed `Ty`: `Type` is reserved in Lean).  `Primitive`
carries the `PrimitiveType` label string directly.  The `Custom` variant is
used by `parser.rs` and `explainer.rs`; it is absent from the snapshot's
`ast.rs` and modelled from the spec: `Custom(name)`, displayed by spelling. -/
inductive Ty
  | Primitive (name : String)
  | Record (kind : RecordKind) (tag : String)
  | Custom (name : String)
deriving DecidableEq, Repr

/-- Display of a type: `Primitive` by its spelling, `Record` as "kind tag",
`Custom` by its name. -/
def Ty.display : Ty → String
  | .Primitive n => n
  | .Record k tag => k.display ++ " " ++ tag
  | .Custom n => n

/-- A qualified type (`QualifiedType(TypeQualifiers, Type)`). -/
structure QualifiedType where
  quals : TypeQualifiers
  ty : Ty
deriving DecidableEq, Repr

mutual
/-- The recursive declarator (`ast.rs`).  Function parameters are a list of
full declarations, encoded with the companion `DeclList` type. -/
inductive Declarator
  | Anonymous
  | Ident (name : String)
  | Ptr (inner : Declarator) (quals : TypeQualifiers)
  | Array (inner : Declarator) (size : Option Nat)
  | Function (func : Declarator) (params : DeclList)

/-- A declaration: base type plus declarator (`ast.rs`). -/
inductive Declaration
  | mk (base_type : QualifiedType) (declarator : Declarator)

/-- A list of declarations (the `Vec<Declaration>` inside `Declarator::Function`). -/
inductive DeclList
  | nil
  | cons (head : Declaration) (tail : DeclList)
end

deriving instance DecidableEq for Declarator, Declaration, DeclList

deriving instance DecidableEq for Except

/-- Projection to the base type of a declaration. -/
def Declaration.base_type : Declaration → QualifiedType
  | .mk b _ => b

/-- Projection to the declarator of a declaration. -/
def Declaration.declarator : Declaration → Declarator
  | .mk _ d => d

/-- Conversion of the parameter list encoding to an ordinary list. -/
def DeclList.toList : DeclList → List Declaration
  | .nil => []
  | .cons d t => d :: t.toList

/-- Modelled from the spec: `Declarator::name` (called by the parser's typedef
branch as `decl.declarator.name()`) is missing from the snapshot's `ast.rs`.
Per the spec, a typedef "registers declared name(s)": the declared name is the
identifier at the leaf of the declarator, if any. -/
def Declarator.name : Declarator → Option String
  | .Anonymous => none
  | .Ident s => some s
  | .Ptr inner _ => inner.name
  | .Array inner _ => inner.name
  | .Function f _ => f.name

/-- The accumulator threaded through the explainer's recursive walk
(`Explanation` in `explainer.rs`). -/
structure Explanation where
  identifier_name : Option String
  msg : HighlightedText
  plurality : Plurality

/-- The fresh accumulator (`Explanation::new`). -/
def Explanation.new : Explanation := ⟨none, [], .Singular⟩

/-- Chooses "a "/"an " from the first character of the segment (`article_for`). -/
def article_for (noun : HighlightedTextSegment) : String :=
  match noun.text.toList with
  | [] => ""
  | c :: _ => if c = 'a' ∨ c = 'e' ∨ c = 'i' ∨ c = 'o' ∨ c = 'u' then "an " else "a "

/-- Naive plural suffix from the last character of the segment (`plural_suffix_for`). -/
def plural_suffix_for (noun : HighlightedTextSegment) : String :=
  match noun.text.toList.getLast? with
  | some c => if c = 's' ∨ c = 'x' ∨ c = 'z' then "es" else "s"
  | none => ""

/-- Renders a qualified type as segments (`format_qualified_type`): the bare
type tagged `PrimitiveType` or `UserDefinedType`, preceded — when the
qualifier set is non-empty — by the qualifiers tagged `Qualifier` and a
separating space. -/
def format_qualified_type (qt : QualifiedType) : HighlightedText :=
  let highlight := match qt.ty with
    | .Primitive _ => Highlight.PrimitiveType
    | .Record _ _ => Highlight.UserDefinedType
    | .Custom _ => Highlight.UserDefinedType
  let seg : HighlightedTextSegment := ⟨qt.ty.display, highlight⟩
  if qt.quals.isEmpty then [seg]
  else [⟨qt.quals.display, Highlight.Qualifier⟩, ⟨" ", Highlight.None⟩, seg]

/-- Renders a parameter-list's explanations into the function phrase, exactly
as the `match &params[..]` in the `Function` branch of `explain_declarator`:
none → "no parameters"; one → parenthesized; two → "and"-joined; three or
more → comma-separated with "and" before the last. -/
def renderParams (msg : HighlightedText) : List HighlightedText → HighlightedText
  | [] => pushStr msg "no parameters"
  | [m] => pushStr (pushStr msg "(" ++ m) ")"
  | [a, b] => pushStr ((pushStr ((pushStr msg "(") ++ a) " and ") ++ b) ")"
  | l =>
    let rest := l.dropLast
    let last := l.getLast!
    let withRest := rest.foldl (fun acc m => pushStr (acc ++ m) ", ") (pushStr msg "(")
    pushStr (pushStr withRest "and " ++ last) ")"

/-- The tail of `explain_declaration_impl` after the declarator walk: attaches
the base type with an article (singular) or plural suffix (plural), and a
trailing " named NAME" for an unconsumed pending name.  The
`highlighted_type[0]` index and `last().unwrap()` are modelled with `head?`
and `getLast?`. -/
def finish_impl (base : QualifiedType) (explanation : Explanation) : Option Explanation := do
  let highlighted_type := format_qualified_type base
  let msg ←
    match explanation.plurality with
    | .Singular => do
      let first ← highlighted_type.head?
      some (pushStr explanation.msg (article_for first) ++ highlighted_type)
    | .Plural => do
      let lastSeg ← highlighted_type.getLast?
      some (pushStr (explanation.msg ++ highlighted_type) (plural_suffix_for lastSeg))
  let msg :=
    match explanation.identifier_name with
    | some name =>
      pushStr msg " named " ++ [(⟨name, Highlight.Ident⟩ : HighlightedTextSegment)]
    | none => msg
  some ⟨explanation.identifier_name, msg, explanation.plurality⟩

/-- The tail of `explain_typedef` after the declarator walk (performed with
name-splicing suppressed): "a type [named NAME] defined as ..." with the
declared name tagged `UserDefinedType`, then the base type (with the `Typedef`
qualifier removed) attached by the walk's plurality. -/
def finish_typedef (base : QualifiedType) (declarator_explanation : Explanation) :
    Option Explanation := do
  let new_type : QualifiedType :=
    ⟨base.quals.remove TypeQualifier.Typedef, base.ty⟩
  let type_str := format_qualified_type new_type
  let msg := pushStr ([] : HighlightedText) "a type"
  let msg :=
    match declarator_explanation.identifier_name with
    | some name =>
      pushStr msg " named " ++
        [(⟨name, Highlight.UserDefinedType⟩ : HighlightedTextSegment)]
    | none => msg
  let msg := pushStr msg " defined as " ++ declarator_explanation.msg
  let msg ←
    match declarator_explanation.plurality with
    | .Singular => do
      let first ← type_str.head?
      some (pushStr msg (article_for first) ++ type_str)
    | .Plural => do
      let lastSeg ← type_str.getLast?
      some (pushStr (msg ++ type_str) (plural_suffix_for lastSeg))
  some ⟨none, msg, .Singular⟩

mutual
/-- The recursive declarator walk (`explain_declarator`).  Returns `none`
exactly where the Rust code would abort: the `unreachable` arm for a pending
identifier name combined with plural inner plurality in the `Function` branch.
All other partial operations of the walk are total. -/
def explain_declarator : Declarator → Bool → Option Explanation
  | .Anonymous, _ => some Explanation.new
  | .Ident name, _ => some { Explanation.new with identifier_name := some name }
  | .Ptr inner qualifiers, skip_name => do
    let sub ← explain_declarator inner skip_name
    let qtext : Option HighlightedTextSegment :=
      if qualifiers.isEmpty then none
      else some ⟨qualifiers.display, Highlight.Qualifier⟩
    let msg :=
      match sub.plurality with
      | .Singular =>
        let m := pushStr sub.msg "a "
        let m := match qtext with
          | some seg => pushStr (m ++ [seg]) " "
          | none => m
        m ++ [(⟨"pointer", Highlight.QuasiKeyword⟩ : HighlightedTextSegment)]
      | .Plural =>
        let m := match qtext with
          | some seg => pushStr (sub.msg ++ [seg]) " "
          | none => sub.msg
        m ++ [(⟨"pointers", Highlight.QuasiKeyword⟩ : HighlightedTextSegment)]
    let msg := pushStr msg " "
    let (msg, nm) :=
      match sub.identifier_name, skip_name with
      | some name, false =>
        (pushStr (pushStr msg "named " ++ [(⟨name, Highlight.Ident⟩ : HighlightedTextSegment)]) " ",
         (none : Option String))
      | nm, _ => (msg, nm)
    let msg := pushStr msg "to "
    some ⟨nm, msg, sub.plurality⟩
  | .Array inner len, skip_name => do
    let sub ← explain_declarator inner skip_name
    let msg :=
      match sub.plurality with
      | .Singular =>
        pushStr sub.msg "an " ++ [(⟨"array", Highlight.QuasiKeyword⟩ : HighlightedTextSegment)]
      | .Plural =>
        sub.msg ++ [(⟨"arrays", Highlight.QuasiKeyword⟩ : HighlightedTextSegment)]
    let (msg, nm) :=
      match sub.identifier_name, skip_name with
      | some name, false =>
        (pushStr msg " named " ++ [(⟨name, Highlight.Ident⟩ : HighlightedTextSegment)],
         (none : Option String))
      | nm, _ => (msg, nm)
    let msg := pushStr msg " of "
    let msg :=
      match len with
      | some n =>
        pushStr (msg ++ [(⟨toString n, Highlight.Number⟩ : HighlightedTextSegment)]) " "
      | none => msg
    some ⟨nm, msg, .Plural⟩
  | .Function func params, skip_name => do
    let sub ← explain_declarator func skip_name
    let name : Option String := if skip_name then none else sub.identifier_name
    let (msg, nm) ←
      match name, sub.plurality with
      | none, .Singular =>
        some (pushStr (pushStr sub.msg "a " ++
          [(⟨"function", Highlight.QuasiKeyword⟩ : HighlightedTextSegment)]) " that takes ",
          sub.identifier_name)
      | none, .Plural =>
        some (pushStr (sub.msg ++
          [(⟨"functions", Highlight.QuasiKeyword⟩ : HighlightedTextSegment)]) " that take ",
          sub.identifier_name)
      | some n, .Singular =>
        some (pushStr ((pushStr ((pushStr sub.msg "a ") ++
          [(⟨"function", Highlight.QuasiKeyword⟩ : HighlightedTextSegment)]) " named ") ++
          [(⟨n, Highlight.Ident⟩ : HighlightedTextSegment)]) " that takes ",
          (none : Option String))
      | some _, .Plural => none
    let paramMsgs ← explain_params params
    let msg := renderParams msg paramMsgs
    let msg := pushStr msg (match sub.plurality with
      | .Singular => " and returns "
      | .Plural => " and return ")
    some ⟨nm, msg, .Singular⟩

/-- Explanations of each parameter in order, via the full declaration
explainer (the `explain_declaration(param)` calls in the `Function` branch). -/
def explain_params : DeclList → Option (List HighlightedText)
  | .nil => some []
  | .cons d t => do
    let m ← explain_declaration d
    let ms ← explain_params t
    some (m :: ms)

/-- The public entry point (`explain_declaration`): dispatches on the presence
of the `Typedef` qualifier (the typedef path with name-splicing suppressed,
the regular path without) and returns the built message. -/
def explain_declaration : Declaration → Option HighlightedText
  | .mk base decl => do
    let e ←
      if base.quals.contains TypeQualifier.Typedef then do
        let de ← explain_declarator decl true
        finish_typedef base de
      else do
        let ex ← explain_declarator decl false
        finish_impl base ex
    some e.msg

/-- The non-typedef case (`explain_declaration_impl`): walks the declarator,
then attaches the base type via `finish_impl`. -/
def explain_declaration_impl : Declaration → Option Explanation
  | .mk base decl => do
    let explanation ← explain_declarator decl false
    finish_impl base explanation
end

/-- The typedef case (`explain_typedef`).  The Rust function asserts that the
`Typedef` qualifier is present; the model returns `none` where the assertion
would fail.  The declarator is walked with name-splicing suppressed and the
result finished by `finish_typedef`. -/
def explain_typedef : Declaration → Option Explanation
  | .mk base decl =>
    if base.quals.contains TypeQualifier.Typedef then do
      let declarator_explanation ← explain_declarator decl true
      finish_typedef base declarator_explanation
    else
      none

end C2e

namespace C2e

namespace Parser

/-- The maximum value of the platform `usize` (the model fixes a 64-bit platform). -/
def USIZE_MAX : Nat := 2 ^ 64 - 1

/-- A cursor into the fixed source text: the remaining characters plus the
byte offset reached (the inputs of interest are ASCII, so byte offsets and
character offsets coincide). -/
structure Cur where
  rest : List Char
  pos : Nat
deriving DecidableEq, Repr

/-- Expected patterns of a `Rich` error (`RichPattern`). -/
inductive Pattern
  | token (c : Char)
  | label (s : String)
  | identifier (s : String)
  | any
  | somethingElse
  | endOfInput
deriving DecidableEq, Repr, Inhabited

/-- The reason carried by a `Rich` error: an expected/found pair or a custom
message (`RichReason`). -/
inductive Reason
  | expectedFound (expected : List Pattern) (found : Option Char)
  | custom (msg : String)
deriving DecidableEq, Repr

/-- A structured parse error: the input position used for furthest-error
comparison, the reported span, and the reason. -/
structure RichError where
  pos : Nat
  spanStart : Nat
  spanStop : Nat
  reason : Reason
deriving DecidableEq, Repr

/-- The running "alt" error of the input: the best error produced so far. -/
abbrev Alt := Option RichError

/-- Merging of two `Rich` errors located at the same input position: expected
pattern lists are appended without duplicates, a custom reason dominates an
expected/found reason, and the span and found token of the existing error are
kept. -/
def RichError.merge (oldE newE : RichError) : RichError :=
  let reason : Reason :=
    match oldE.reason, newE.reason with
    | .expectedFound e1 f, .expectedFound e2 _ =>
      .expectedFound (e2.foldl (fun acc p => if acc.contains p then acc else acc ++ [p]) e1) f
    | .custom m, _ => .custom m
    | _, .custom m => .custom m
  ⟨oldE.pos, oldE.spanStart, oldE.spanStop, reason⟩

/-- The furthest-error rule: a new error replaces the alt when strictly
further into the input, merges with it at the same position, and is discarded
when earlier. -/
def addAlt (a : Alt) (e : RichError) : Alt :=
  match a with
  | none => some e
  | some oldE =>
    if oldE.pos < e.pos then some e
    else if oldE.pos = e.pos then some (oldE.merge e)
    else some oldE

/-- The `label_with` operation of `Rich`: replaces the expected set of an
expected/found reason with the label; custom reasons are left untouched. -/
def RichError.labelWith (e : RichError) (lbl : String) : RichError :=
  match e.reason with
  | .expectedFound _ f => { e with reason := .expectedFound [Pattern.label lbl] f }
  | .custom _ => e

/-- Result of running a parser: a value with the new cursor, or failure.  The
alt error threads through both outcomes; on failure the caller resumes from
its own saved cursor (chumsky's rewind discipline). -/
inductive PResult (α : Type)
  | ok (val : α) (cur : Cur) (alt : Alt)
  | fail (alt : Alt)

/-- A parser over the embedded input model. -/
abbrev P (α : Type) := Cur → Alt → PResult α

/-- Advances the cursor past `n` characters. -/
def Cur.advance (c : Cur) (n : Nat) : Cur := ⟨c.rest.drop n, c.pos + n⟩

/-- The token at the cursor, if any. -/
def Cur.found? (c : Cur) : Option Char := c.rest.head?

/-- An expected/found error for a primitive failing at `c`: located at
`c.pos`, spanning one token when a token is present and empty at end of
input. -/
def primError (c : Cur) (expected : List Pattern) : RichError :=
  match c.rest.head? with
  | some ch => ⟨c.pos, c.pos, c.pos + 1, .expectedFound expected (some ch)⟩
  | none => ⟨c.pos, c.pos, c.pos, .expectedFound expected none⟩

/-- The `just(c)` primitive. -/
def pJust (ch : Char) : P Unit := fun c a =>
  match c.rest with
  | c0 :: _ =>
    if c0 = ch then .ok () (c.advance 1) a
    else .fail (addAlt a (primError c [.token ch]))
  | [] => .fail (addAlt a (primError c [.token ch]))

/-- Whitespace skipping as performed by `padded()`. -/
def skipWs (c : Cur) : Cur :=
  c.advance (c.rest.takeWhile Char.isWhitespace).length

/-- The `padded()` combinator: whitespace is skipped before and after the
inner pattern. -/
def padded {α : Type} (p : P α) : P α := fun c a =>
  match p (skipWs c) a with
  | .ok v c' a' => .ok v (skipWs c') a'
  | .fail a' => .fail a'

/-- Restores the outer alt after a labelled region: the region's own alt error
has its expected set replaced by the label when it lies at the region's start
position, and is then folded into the outer alt. -/
def mergeLabelled (outer : Alt) (inner : Alt) (lbl : String) (start : Nat) : Alt :=
  match inner with
  | none => outer
  | some e => addAlt outer (if e.pos = start then e.labelWith lbl else e)

/-- The `labelled` combinator: the inner parser runs with a fresh alt; its alt
contribution is labelled when located at the region's start and merged back. -/
def labelled {α : Type} (lbl : String) (p : P α) : P α := fun c a =>
  match p c none with
  | .ok v c' newAlt => .ok v c' (mergeLabelled a newAlt lbl c.pos)
  | .fail newAlt => .fail (mergeLabelled a newAlt lbl c.pos)

/-- Identifier characters: the inputs of interest are ASCII. -/
def isIdentStart (c : Char) : Bool := c.isAlpha || c = '_'

/-- Continuation characters of an identifier. -/
def isIdentCont (c : Char) : Bool := c.isAlphanum || c = '_'

/-- The `text::ident()` parser: an identifier-start character followed by
identifier characters.  At end of input the failure expects "anything" (from
the leading `any()`); at a non-identifier character it expects "something
else" (from the filter). -/
def pIdent : P String := fun c a =>
  match c.rest with
  | [] => .fail (addAlt a (primError c [.any]))
  | ch :: _ =>
    if isIdentStart ch then
      let run := c.rest.takeWhile isIdentCont
      .ok (String.mk run) (c.advance run.length) a
    else .fail (addAlt a (primError c [.somethingElse]))

/-- The `text::keyword(k)` parser: an identifier that must equal `k`; on
mismatch the error spans the identifier and is located at its start. -/
def pKeyword (k : String) : P String := fun c a =>
  match pIdent c a with
  | .ok s c' a' =>
    if s = k then .ok s c' a'
    else .fail (addAlt a'
      ⟨c.pos, c.pos, c.pos + s.length, .expectedFound [.identifier k] c.found?⟩)
  | .fail a' => .fail a'

/-- The `text::int(10)` parser: "0" or a nonzero digit followed by digits. -/
def pInt10 : P (List Char) := fun c a =>
  match c.rest with
  | [] => .fail (addAlt a (primError c [.somethingElse]))
  | ch :: _ =>
    if ch = '0' then .ok ['0'] (c.advance 1) a
    else if ch.isDigit then
      let run := c.rest.takeWhile Char.isDigit
      .ok run (c.advance run.length) a
    else .fail (addAlt a (primError c [.somethingElse]))

/-- Decimal value of a digit run. -/
def digitsToNat (l : List Char) : Nat :=
  l.foldl (fun acc c => acc * 10 + (c.toNat - '0'.toNat)) 0

/-- The array-size parser `int(10).try_map(|s| usize::from_str(s) ...)`:
parses an integer literal and fails with the `ParseIntError` overflow message,
spanning exactly the literal, when the value exceeds the platform's usize
capacity. -/
def pArraySize : P Nat := fun c a =>
  match pInt10 c a with
  | .ok ds c' a' =>
    let n := digitsToNat ds
    if n ≤ USIZE_MAX then .ok n c' a'
    else .fail (addAlt a'
      ⟨c.pos, c.pos, c.pos + ds.length, .custom "number too large to fit in target type"⟩)
  | .fail a' => .fail a'

/-- The `or_not()` combinator: failure yields `none` with the cursor rewound. -/
def orNot {α : Type} (p : P α) : P (Option α) := fun c a =>
  match p c a with
  | .ok v c' a' => .ok (some v) c' a'
  | .fail a' => .ok none c a'

/-- Ordered backtracking choice over a list of parsers. -/
def choice {α : Type} (ps : List (P α)) : P α := fun c a =>
  match ps with
  | [] => .fail a
  | p :: rest =>
    match p c a with
    | .ok v c' a' => .ok v c' a'
    | .fail a' => choice rest c a'

/-- The `map` combinator. -/
def pmap {α β : Type} (f : α → β) (p : P α) : P β := fun c a =>
  match p c a with
  | .ok v c' a' => .ok (f v) c' a'
  | .fail a' => .fail a'

/-- Sequencing of two parsers (`then`). -/
def pthen {α β : Type} (p : P α) (q : P β) : P (α × β) := fun c a =>
  match p c a with
  | .ok v c' a' =>
    match q c' a' with
    | .ok w c'' a'' => .ok (v, w) c'' a''
    | .fail a'' => .fail a''
  | .fail a' => .fail a'

/-- One type qualifier:
`choice((const, volatile, restrict)).labelled("type qualifier").padded()`. -/
def pQualifierOne : P TypeQualifier :=
  padded (labelled "type qualifier" (choice [
    pmap (fun _ => TypeQualifier.Const) (pKeyword "const"),
    pmap (fun _ => TypeQualifier.Volatile) (pKeyword "volatile"),
    pmap (fun _ => TypeQualifier.Restrict) (pKeyword "restrict")]))

/-- The repetition collecting qualifiers into the set; each success consumes a
keyword, so the fuel (bounded by the remaining length) is never exhausted. -/
def pQualifiersLoop : Nat → TypeQualifiers → P TypeQualifiers
  | 0, q => fun c a => .ok q c a
  | n + 1, q => fun c a =>
    match pQualifierOne c a with
    | .ok tq c' a' => pQualifiersLoop n (q.insert tq) c' a'
    | .fail a' => .ok q c a'

/-- Zero or more type qualifiers collected into a `TypeQualifiers` set. -/
def pQualifiers : P TypeQualifiers := fun c a =>
  pQualifiersLoop (c.rest.length + 1) TypeQualifiers.empty c a

/-- The table of primitive type-specifier alternatives of
`primitive_type_parser`, in source order: each entry is the keyword sequence
and the `PrimitiveType` spelling it produces. -/
def primitiveTypeTable : List (List String × String) := [
  (["unsigned", "long", "long", "int"], "unsigned long long int"),
  (["unsigned", "long", "long"], "unsigned long long"),
  (["unsigned", "long", "int"], "unsigned long int"),
  (["unsigned", "short", "int"], "unsigned short int"),
  (["unsigned", "short"], "unsigned short"),
  (["unsigned", "long"], "unsigned long"),
  (["unsigned", "int"], "unsigned int"),
  (["unsigned", "char"], "unsigned char"),
  (["unsigned"], "unsigned"),
  (["signed", "long", "long", "int"], "signed long long int"),
  (["signed", "long", "long"], "signed long long"),
  (["signed", "long", "int"], "signed long int"),
  (["signed", "long"], "signed long"),
  (["signed", "short", "int"], "signed short int"),
  (["signed", "short"], "signed short"),
  (["signed", "char"], "signed char"),
  (["signed", "int"], "signed int"),
  (["signed"], "signed"),
  (["long", "long", "int"], "long long int"),
  (["long", "double", "_Complex"], "long double _Complex"),
  (["long", "double"], "long double"),
  (["long", "long"], "long long"),
  (["long", "int"], "long int"),
  (["long"], "long"),
  (["short", "int"], "short int"),
  (["short"], "short"),
  (["float", "_Complex"], "float _Complex"),
  (["float"], "float"),
  (["double", "_Complex"], "double _Complex"),
  (["double"], "double"),
  (["void"], "void"),
  (["char"], "char"),
  (["int"], "int"),
  (["_Bool"], "_Bool")]

/-- A sequence of padded keywords (`keyword(a).padded().then(keyword(b).padded())...`). -/
def pKwSeq : List String → P Unit
  | [] => fun c a => .ok () c a
  | w :: ws => fun c a =>
    match padded (pKeyword w) c a with
    | .ok _ c' a' => pKwSeq ws c' a'
    | .fail a' => .fail a'

/-- The primitive-type parser: the alternation over all table entries, padded
and labelled "primitive type". -/
def pPrimitiveType : P String :=
  labelled "primitive type"
    (padded (choice (primitiveTypeTable.map (fun e => pmap (fun _ => e.2) (pKwSeq e.1)))))

/-- The custom-type alternative: `ident().padded().try_map_with(..)`, which
consults the parser state and produces the semantic error otherwise.  The
error spans the input consumed by the padded identifier and is located at its
start. -/
def pCustomType (st : List String) : P Ty := fun c a =>
  match padded pIdent c a with
  | .ok s c' a' =>
    if st.contains s then .ok (Ty.Custom s) c' a'
    else .fail (addAlt a'
      ⟨c.pos, c.pos, c'.pos, .custom ("\"" ++ s ++ "\" is used as a type but has not been defined")⟩)
  | .fail a' => .fail a'

/-- The type parser: primitive, record, or custom alternative, labelled "type". -/
def pType (st : List String) : P Ty :=
  labelled "type" (choice [
    pmap Ty.Primitive pPrimitiveType,
    pmap (fun (kt : String × String) => Ty.Record (RecordKind.fromKeyword kt.1) kt.2)
      (pthen (choice [pKeyword "struct", pKeyword "union", pKeyword "enum"]) (padded pIdent)),
    labelled "custom type" (pCustomType st)])

/-- Qualifiers followed by a type (`qualified_type`). -/
def pQualifiedType (st : List String) : P QualifiedType :=
  pmap (fun (qt : TypeQualifiers × Ty) => ⟨qt.1, qt.2⟩) (pthen pQualifiers (pType st))

/-- The array declarator suffix `[size?]`, labelled "array brackets". -/
def pArraySuffix : P (Option Nat) :=
  labelled "array brackets" (fun c a =>
    match padded (pJust '[') c a with
    | .ok _ c1 a1 =>
      match orNot pArraySize c1 a1 with
      | .ok sz c2 a2 =>
        match padded (pJust ']') c2 a2 with
        | .ok _ c3 a3 => .ok sz c3 a3
        | .fail a3 => .fail a3
      | .fail a2 => .fail a2
    | .fail a1 => .fail a1)

/-- The special-case `(void)` parameter list. -/
def pVoidParens : P Unit := fun c a =>
  match padded (pJust '(') c a with
  | .ok _ c1 a1 =>
    match pKeyword "void" c1 a1 with
    | .ok _ c2 a2 =>
      match padded (pJust ')') c2 a2 with
      | .ok _ c3 a3 => .ok () c3 a3
      | .fail a3 => .fail a3
    | .fail a2 => .fail a2
  | .fail a1 => .fail a1

/-- Conversion of a plain list to the parameter-list encoding. -/
def listToDeclList : List Declaration → DeclList
  | [] => .nil
  | d :: t => .cons d (listToDeclList t)

mutual
/-- One declaration (`qualified_type then declarator`, padded). -/
def pDeclaration : Nat → List String → P Declaration
  | 0, _ => fun _ a => .fail a
  | n + 1, st =>
    padded (pmap (fun (bd : QualifiedType × Declarator) => Declaration.mk bd.1 bd.2)
      (pthen (pQualifiedType st) (pDeclarator n st)))

/-- A declarator: pointer prefixes folded (rightmost innermost) around the
suffixed atom. -/
def pDeclarator : Nat → List String → P Declarator
  | 0, _ => fun _ a => .fail a
  | n + 1, st => fun c a =>
    match pPtrPrefixes n c a with
    | .ok qs c' a' =>
      match pWithSuffixes n st c' a' with
      | .ok d c'' a'' =>
        .ok (qs.foldr (fun q inner => Declarator.Ptr inner q) d) c'' a''
      | .fail a'' => .fail a''
    | .fail a' => .fail a'

/-- Zero or more `'*' qualifier*` pointer prefixes. -/
def pPtrPrefixes : Nat → P (List TypeQualifiers)
  | 0 => fun c a => .ok [] c a
  | n + 1 => fun c a =>
    match padded (pJust '*') c a with
    | .ok _ c' a' =>
      match pQualifiers c' a' with
      | .ok q c'' a'' =>
        match pPtrPrefixes n c'' a'' with
        | .ok qs c3 a3 => .ok (q :: qs) c3 a3
        | .fail a3 => .fail a3
      | .fail a'' => .fail a''
    | .fail a' => .ok [] c a'

/-- A declarator atom: an identifier, or a parenthesized declarator. -/
def pAtom : Nat → List String → P Declarator
  | 0, _ => fun _ a => .fail a
  | n + 1, st => fun c a =>
    match pIdent c a with
    | .ok s c' a' => .ok (Declarator.Ident s) c' a'
    | .fail a' =>
      match padded (pJust '(') c a' with
      | .ok _ c1 a1 =>
        match pDeclarator n st c1 a1 with
        | .ok d c2 a2 =>
          match padded (pJust ')') c2 a2 with
          | .ok _ c3 a3 => .ok d c3 a3
          | .fail a3 => .fail a3
        | .fail a2 => .fail a2
      | .fail a1 => .fail a1

/-- The optional atom with its suffix repetition (`with_suffixes`): a missing
atom is `Anonymous`, then array/function suffixes fold inner-to-outer. -/
def pWithSuffixes : Nat → List String → P Declarator
  | 0, _ => fun _ a => .fail a
  | n + 1, st => fun c a =>
    match pAtom n st c a with
    | .ok d c' a' => pSuffixLoop n st d c' a'
    | .fail a' => pSuffixLoop n st Declarator.Anonymous c a'

/-- The suffix repetition: at each step, try the array suffix then the
function suffix from the same spot; fold successes around the accumulator. -/
def pSuffixLoop : Nat → List String → Declarator → P Declarator
  | 0, _, d => fun c a => .ok d c a
  | n + 1, st, d => fun c a =>
    match pArraySuffix c a with
    | .ok sz c' a' => pSuffixLoop n st (Declarator.Array d sz) c' a'
    | .fail a' =>
      match pFuncSuffix n st c a' with
      | .ok ps c' a'' => pSuffixLoop n st (Declarator.Function d (listToDeclList ps)) c' a''
      | .fail a'' => .ok d c a''

/-- The function declarator suffix, labelled "function parentheses": `(void)`
meaning no parameters, or a parenthesized parameter list. -/
def pFuncSuffix : Nat → List String → P (List Declaration)
  | 0, _ => fun _ a => .fail a
  | n + 1, st =>
    labelled "function parentheses" (fun c a =>
      match pVoidParens c a with
      | .ok _ c' a' => .ok [] c' a'
      | .fail a' =>
        match padded (pJust '(') c a' with
        | .ok _ c1 a1 =>
          match pParamsFirst n st c1 a1 with
          | .ok ps c2 a2 =>
            match padded (pJust ')') c2 a2 with
            | .ok _ c3 a3 => .ok ps c3 a3
            | .fail a3 => .fail a3
          | .fail a2 => .fail a2
        | .fail a1 => .fail a1)

/-- The parameter list: declarations labelled "function parameter", separated
by padded commas, zero-or-more, with a trailing separator allowed. -/
def pParamsFirst : Nat → List String → P (List Declaration)
  | 0, _ => fun c a => .ok [] c a
  | n + 1, st => fun c a =>
    match labelled "function parameter" (pDeclaration n st) c a with
    | .ok d c' a' => pParamsLoop n st [d] c' a'
    | .fail a' => .ok [] c a'

/-- The separator-then-item iteration of the parameter list; on an item
failure after a consumed separator the separator stays consumed
(`allow_trailing`). -/
def pParamsLoop : Nat → List String → List Declaration → P (List Declaration)
  | 0, _, acc => fun c a => .ok acc c a
  | n + 1, st, acc => fun c a =>
    match padded (pJust ',') c a with
    | .fail a' => .ok acc c a'
    | .ok _ c1 a1 =>
      match labelled "function parameter" (pDeclaration n st) c1 a1 with
      | .ok d c2 a2 => pParamsLoop n st (acc ++ [d]) c2 a2
      | .fail a2 => .ok acc c1 a2
end

/-- The typedef item: `keyword("typedef").padded()` followed by a declaration;
on success the declared name (if any) is pushed onto the custom-type registry
and the `Typedef` qualifier is inserted into the base type.  The state is
returned alongside, mirroring the `map_with` state mutation; nothing ever
removes entries (the `Inspector` impl's rewind hook is a no-op). -/
def pTypedefItem (fuel : Nat) (st : List String) : P (Declaration × List String) := fun c a =>
  match padded (pKeyword "typedef") c a with
  | .ok _ c1 a1 =>
    match pDeclaration fuel st c1 a1 with
    | .ok d c2 a2 =>
      match d with
      | .mk bt dec =>
        let st' := match dec.name with
          | some nm => st ++ [nm]
          | none => st
        .ok (Declaration.mk ⟨bt.quals.insert TypeQualifier.Typedef, bt.ty⟩ dec, st') c2 a2
    | .fail a2 => .fail a2
  | .fail a1 => .fail a1

/-- One top-level item: a typedef declaration or a regular declaration, with
the possibly-grown registry. -/
def pItem (fuel : Nat) (st : List String) : P (Declaration × List String) := fun c a =>
  match pTypedefItem fuel st c a with
  | .ok r c' a' => .ok r c' a'
  | .fail a' =>
    match pDeclaration fuel st c a' with
    | .ok d c'' a'' => .ok (d, st) c'' a''
    | .fail a'' => .fail a''

/-- Additional padded semicolons after the first (each success consumes). -/
def pSemisMore : Nat → P Unit
  | 0 => fun c a => .ok () c a
  | n + 1 => fun c a =>
    match padded (pJust ';') c a with
    | .ok _ c' a' => pSemisMore n c' a'
    | .fail a' => .ok () c a'

/-- The declaration separator: one or more padded semicolons. -/
def pSemis : P Unit := fun c a =>
  match padded (pJust ';') c a with
  | .ok _ c' a' => pSemisMore c'.rest.length c' a'
  | .fail a' => .fail a'

/-- The separator-then-item iteration of the top-level list (`separated_by`
with `allow_trailing`), threading the registry through the items. -/
def pItemsLoop : Nat → List String → List Declaration → Cur → Alt →
    List Declaration × Cur × Alt × List String
  | 0, st, acc, c, a => (acc, c, a, st)
  | n + 1, st, acc, c, a =>
    match pSemis c a with
    | .fail a' => (acc, c, a', st)
    | .ok _ c1 a1 =>
      match pItem n st c1 a1 with
      | .ok (d, st') c2 a2 => pItemsLoop n st' (acc ++ [d]) c2 a2
      | .fail a2 => (acc, c1, a2, st)

/-- The top-level item list: zero or more items (the first without a leading
separator), never failing. -/
def pItemsFirst (fuel : Nat) (st : List String) (c : Cur) (a : Alt) :
    List Declaration × Cur × Alt × List String :=
  match pItem fuel st c a with
  | .ok (d, st') c' a' => pItemsLoop fuel st' [d] c' a'
  | .fail a' => ([], c, a', st)

/-- The `parse_with_state` entry point: runs the program parser followed by
the end-of-input check, returning either the declarations or the single
furthest-position error, together with the final custom-type registry.  The
recursion fuel is computed from the input length and is ample for any input
the grammar can consume. -/
def parseWithState (src : String) (st : List String) :
    Except (List RichError) (List Declaration) × List String :=
  let cs := src.toList
  let fuel := cs.length * 8 + 64
  let r := pItemsFirst fuel st ⟨cs, 0⟩ none
  match r.2.1.rest with
  | [] => (.ok r.1, r.2.2.2)
  | ch :: _ =>
    let c := r.2.1
    let a' := addAlt r.2.2.1 ⟨c.pos, c.pos, c.pos + 1, .expectedFound [.endOfInput] (some ch)⟩
    match a' with
    | some e => (.error [e], r.2.2.2)
    | none => (.error [], r.2.2.2)

/-- Display of a `RichPattern` (`RichPatternWrapper` in `parser/error.rs`). -/
def Pattern.display : Pattern → String
  | .token c => "'" ++ String.mk [c] ++ "'"
  | .label s => s
  | .identifier s => "'" ++ s ++ "'"
  | .any => "anything"
  | .somethingElse => "something else"
  | .endOfInput => "end of input"

/-- Display of the expected alternatives ("X", "X or Y", "X, Y, or Z"). -/
def displayExpected : List Pattern → String
  | [] => "[unknown]"
  | [p] => p.display
  | [p, q] => p.display ++ " or " ++ q.display
  | l =>
    String.intercalate ", " (l.dropLast.map Pattern.display) ++ ", or " ++
      (l.getLast!).display

/-- The `Display` impl of `RichWrapper`: "at start..end: " followed by the
expected/found rendering or the custom message. -/
def RichError.display (e : RichError) : String :=
  "at " ++ toString e.spanStart ++ ".." ++ toString e.spanStop ++ ": " ++
  (match e.reason with
   | .expectedFound exp f =>
     "expected " ++ displayExpected exp ++ ", but found " ++
       (match f with
        | some c => "'" ++ String.mk [c] ++ "'"
        | none => "end of input")
   | .custom m => m)

end Parser

end C2e

namespace C2e

/-- Parses with the given registry and explains every resulting declaration as
plain text; `none` when parsing fails or any explanation would abort. -/
def explainTexts (src : String) (st : List String) : Option (List String) :=
  match (Parser.parseWithState src st).1 with
  | .ok ds => ds.mapM (fun d => (explain_declaration d).map toText)
  | .error _ => none

/-- Whether parsing with the given registry succeeds. -/
def parses (src : String) (st : List String) : Bool :=
  match (Parser.parseWithState src st).1 with
  | .ok _ => true
  | .error _ => false

/-- The rendered messages of the errors of a failing parse (empty registry). -/
def errorDisplays (src : String) : List String :=
  match (Parser.parseWithState src []).1 with
  | .error es => es.map Parser.RichError.display
  | .ok _ => []

/-- The reported spans of the errors of a failing parse (empty registry). -/
def errorSpans (src : String) : List (Nat × Nat) :=
  match (Parser.parseWithState src []).1 with
  | .error es => es.map (fun e => (e.spanStart, e.spanStop))
  | .ok _ => []

/-- Validation of the embedding against the repository's own error-rendering
tests (`parser/error.rs` and `parser.rs` test modules): the exact messages for
`" "`, `"int foo[0"` and `"int f("`, the exact message and span for the
out-of-range array length, and the span of the invalid array length. -/
theorem repo_error_rendering_tests :
    errorDisplays " " =
      ["at 1..1: expected anything, type qualifier, or type, but found end of input"] ∧
    errorDisplays "int foo[0" = ["at 9..9: expected ']', but found end of input"] ∧
    errorDisplays "int f(" =
      ["at 6..6: expected anything, function parameter, or ')', but found end of input"] ∧
    errorDisplays "int arr[184467440737095516150]" =
      ["at 8..29: number too large to fit in target type"] ∧
    errorSpans "int arr[184467440737095516150]" = [(8, 29)] ∧
    errorSpans "int arr[x]" = [(8, 9)] :=
  ⟨rfl, rfl, rfl, rfl, rfl, rfl⟩

/-- Validation of the embedding against the repository's explainer tests:
three representative end-to-end cases from `explainer.rs`. -/
theorem repo_explainer_tests :
    explainTexts "char *(*(*bar)[5])(int)" [] =
      some ["a pointer named bar to an array of 5 pointers to functions that take (an int) and return a pointer to a char"] ∧
    explainTexts "typedef const char *string" [] =
      some ["a type named string defined as a pointer to a const char"] ∧
    explainTexts "int *arr[10]" [] =
      some ["an array named arr of 10 pointers to ints"] ∧
    explainTexts "void print(int a, char *b, float c)" [] =
      some ["a function named print that takes (an int named a, a pointer named b to a char, and a float named c) and returns a void"] :=
  ⟨rfl, rfl, rfl, rfl⟩

/-- C1: parenthesization changes meaning — parsing and explaining
`"int (*p)[10]"` yields the text "a pointer named p to an array of 10 ints",
`"int *p[10]"` yields "an array named p of 10 pointers to ints", and the two
explanations differ. -/
theorem c1_parenthesization_changes_meaning :
    explainTexts "int (*p)[10]" [] = some ["a pointer named p to an array of 10 ints"] ∧
    explainTexts "int *p[10]" [] = some ["an array named p of 10 pointers to ints"] ∧
    ("a pointer named p to an array of 10 ints" : String) ≠
      "an array named p of 10 pointers to ints" :=
  ⟨rfl, rfl, by decide⟩

/-- Article required by the spec's round-trip property: "an " when the
spelling starts with a vowel, "a " otherwise. -/
def spellingArticle (sp : String) : String :=
  match sp.toList with
  | [] => ""
  | c :: _ => if c = 'a' ∨ c = 'e' ∨ c = 'i' ∨ c = 'o' ∨ c = 'u' then "an " else "a "

/-- Round-trip check for one primitive-type spelling: `"<spelling> foo"`
parses to a single declaration whose base is `Primitive` with that exact
spelling (whose rendered name is the spelling), and its explanation is
"{article} {spelling} named foo". -/
def primitiveRoundTrip (sp : String) : Bool :=
  decide ((Parser.parseWithState (sp ++ " foo") []).1 =
    Except.ok [Declaration.mk ⟨TypeQualifiers.empty, Ty.Primitive sp⟩ (Declarator.Ident "foo")]) &&
  decide (Ty.display (Ty.Primitive sp) = sp) &&
  decide (explainTexts (sp ++ " foo") [] = some [spellingArticle sp ++ sp ++ " named foo"])

/-- C3 counterexample: the fixed closed set of primitive type spellings in the
parser has 34 members (pairwise distinct), not 33 as the claim states. -/
theorem c3_spelling_count_counterexample :
    (Parser.primitiveTypeTable.map Prod.snd).length = 34 ∧
    (Parser.primitiveTypeTable.map Prod.snd).Nodup ∧
    (34 : Nat) ≠ 33 :=
  ⟨rfl, by decide, by decide⟩

/-- C3 (amended): each of the 34 primitive type spellings round-trips —
parsing `"<spelling> foo"` yields a `Primitive` base type whose rendered name
is the spelling, and explaining yields "{article} {spelling} named foo" with
"an" exactly for vowel-initial spellings. -/
theorem c3_primitive_round_trip :
    (Parser.primitiveTypeTable.map Prod.snd).length = 34 ∧
    (Parser.primitiveTypeTable.map Prod.snd).all primitiveRoundTrip = true :=
  ⟨rfl, rfl⟩

/-- C4: typedef gating — parsing `"foo x"` with an empty registry fails with
the semantic error at foo's span (bytes 0..3); parsing `"typedef int foo;"`
grows the registry to `["foo"]`; and re-parsing `"foo x"` with that shared
registry succeeds with base type `Custom "foo"` and declarator `Ident "x"`. -/
theorem c4_typedef_gating :
    (Parser.parseWithState "foo x" []).1 = Except.error
      [⟨0, 0, 3, .custom "\"foo\" is used as a type but has not been defined"⟩] ∧
    (Parser.parseWithState "typedef int foo;" []).2 = ["foo"] ∧
    (Parser.parseWithState "foo x" (Parser.parseWithState "typedef int foo;" []).2).1 =
      Except.ok [Declaration.mk ⟨TypeQualifiers.empty, Ty.Custom "foo"⟩ (Declarator.Ident "x")] :=
  ⟨rfl, rfl, rfl⟩

/-- C6 counterexample: a leading semicolon is not permitted — `"; int x"` and
`";"` fail to parse even though `"int x"` parses. -/
theorem c6_leading_semicolon_counterexample :
    parses "; int x" [] = false ∧
    parses ";" [] = false ∧
    parses "int x" [] = true :=
  ⟨rfl, rfl, rfl⟩

/-- C6 (amended): the empty input parses to the empty declaration list, extra
separating semicolons and a trailing semicolon yield the same declaration
list as the singly-separated form, but a leading semicolon is a parse
error (an empty statement is only accepted between or after declarations). -/
theorem c6_separators :
    (Parser.parseWithState "" []).1 = Except.ok [] ∧
    (Parser.parseWithState "int a; const char b; struct foo c" []).1 =
      Except.ok
        [Declaration.mk ⟨TypeQualifiers.empty, Ty.Primitive "int"⟩ (Declarator.Ident "a"),
         Declaration.mk ⟨⟨true, false, false, false⟩, Ty.Primitive "char"⟩ (Declarator.Ident "b"),
         Declaration.mk ⟨TypeQualifiers.empty, Ty.Record RecordKind.Struct "foo"⟩ (Declarator.Ident "c")] ∧
    (Parser.parseWithState "int a; const char b;;; struct foo c;" []).1 =
      Except.ok
        [Declaration.mk ⟨TypeQualifiers.empty, Ty.Primitive "int"⟩ (Declarator.Ident "a"),
         Declaration.mk ⟨⟨true, false, false, false⟩, Ty.Primitive "char"⟩ (Declarator.Ident "b"),
         Declaration.mk ⟨TypeQualifiers.empty, Ty.Record RecordKind.Struct "foo"⟩ (Declarator.Ident "c")] ∧
    (Parser.parseWithState "int x" []).1 =
      Except.ok [Declaration.mk ⟨TypeQualifiers.empty, Ty.Primitive "int"⟩ (Declarator.Ident "x")] ∧
    (Parser.parseWithState "int x;" []).1 =
      Except.ok [Declaration.mk ⟨TypeQualifiers.empty, Ty.Primitive "int"⟩ (Declarator.Ident "x")] ∧
    parses "; int x" [] = false :=
  ⟨rfl, rfl, rfl, rfl, rfl, rfl⟩

/-- C7 counterexample: the single error for `"int x = 5;"` also expects the
declaration separator ';', so its rendered message is not the claimed
"expected '[', '(', or end of input, but found '='". -/
theorem c7_message_counterexample :
    (Parser.parseWithState "int x = 5;" []).1 = Except.error
      [⟨6, 6, 7, .expectedFound
        [.token '[', .token '(', .token ';', .endOfInput] (some '=')⟩] ∧
    (Parser.Reason.expectedFound
        [.token '[', .token '(', .token ';', .endOfInput] (some '=')) ≠
      (Parser.Reason.expectedFound [.token '[', .token '(', .endOfInput] (some '=')) ∧
    errorDisplays "int x = 5;" ≠
      ["at 6..7: expected '[', '(', or end of input, but found '='"] :=
  ⟨rfl, by decide, by decide⟩

/-- C7 (amended): parsing `"int x = 5;"` produces exactly one syntax error,
spanning the '=' token (bytes 6..7), whose rendered message is
"expected '[', '(', ';', or end of input, but found '='". -/
theorem c7_syntax_error :
    (Parser.parseWithState "int x = 5;" []).1 = Except.error
      [⟨6, 6, 7, .expectedFound
        [.token '[', .token '(', .token ';', .endOfInput] (some '=')⟩] ∧
    errorDisplays "int x = 5;" =
      ["at 6..7: expected '[', '(', ';', or end of input, but found '='"] :=
  ⟨rfl, rfl⟩

end C2e

namespace C2e

/-- C2 counterexample: a `Ptr` around a plural inner declarator (an array)
yields Plural at its own level, not Singular as the claim states. -/
theorem c2_ptr_plural_counterexample :
    (explain_declarator
        (Declarator.Ptr (Declarator.Array Declarator.Anonymous none) TypeQualifiers.empty)
        false).map Explanation.plurality = some Plurality.Plural ∧
    Plurality.Plural ≠ Plurality.Singular :=
  ⟨rfl, by decide⟩

/-- C2 (amended): in the explainer's recursive walk, an `Array` node always
yields Plural at its own level and a `Function` node always yields Singular,
regardless of the inner declarator; a `Ptr` node propagates its inner
declarator's plurality unchanged. -/
theorem c2_plurality_propagation :
    (∀ inner size skip e, explain_declarator (.Array inner size) skip = some e →
      e.plurality = Plurality.Plural) ∧
    (∀ func params skip e, explain_declarator (.Function func params) skip = some e →
      e.plurality = Plurality.Singular) ∧
    (∀ inner quals skip e e', explain_declarator (.Ptr inner quals) skip = some e →
      explain_declarator inner skip = some e' → e.plurality = e'.plurality) := by
  refine ⟨?_, ?_, ?_⟩
  · intro inner size skip e h
    rw [explain_declarator] at h
    cases hin : explain_declarator inner skip with
    | none => rw [hin] at h; simp at h
    | some sub =>
      rw [hin] at h
      simp only [Option.bind_eq_bind, Option.some_bind] at h
      split at h <;> (injection h with h2; subst h2; rfl)
  · intro func params skip e h
    rw [explain_declarator] at h
    cases hin : explain_declarator func skip with
    | none => rw [hin] at h; simp at h
    | some sub =>
      rw [hin] at h
      simp only [Option.bind_eq_bind, Option.some_bind] at h
      cases skip <;> cases hn : sub.identifier_name <;> cases hp2 : sub.plurality <;>
          rw [hn, hp2] at h <;>
          simp only [Option.bind_eq_bind, Option.some_bind, Bool.false_eq_true,
            if_false, if_true, reduceIte] at h <;>
          first
          | (cases hpar : explain_params params with
             | none => rw [hpar] at h; simp at h
             | some ms =>
               rw [hpar] at h
               simp only [Option.bind_eq_bind, Option.some_bind] at h
               injection h with h2
               subst h2
               rfl)
          | simp at h
  · intro inner quals skip e e' h h'
    rw [explain_declarator] at h
    rw [h'] at h
    simp only [Option.bind_eq_bind, Option.some_bind] at h
    split at h <;> (injection h with h2; subst h2; rfl)

/-- C2 witness: the amended plurality rules instantiated at concrete
declarators, with the walks evaluated. -/
theorem c2_plurality_witness :
    (explain_declarator (Declarator.Array Declarator.Anonymous none) false =
      some ⟨none, [⟨"an ", .None⟩, ⟨"array", .QuasiKeyword⟩, ⟨" of ", .None⟩], .Plural⟩ ∧
     (Explanation.mk none
        [⟨"an ", .None⟩, ⟨"array", .QuasiKeyword⟩, ⟨" of ", .None⟩] .Plural).plurality =
       Plurality.Plural) ∧
    (explain_declarator (Declarator.Function Declarator.Anonymous DeclList.nil) false =
      some ⟨none,
        [⟨"a ", .None⟩, ⟨"function", .QuasiKeyword⟩,
         ⟨" that takes no parameters and returns ", .None⟩], .Singular⟩ ∧
     (Explanation.mk none
        [⟨"a ", .None⟩, ⟨"function", .QuasiKeyword⟩,
         ⟨" that takes no parameters and returns ", .None⟩] .Singular).plurality =
       Plurality.Singular) ∧
    ((Explanation.mk none
        [⟨"a ", .None⟩, ⟨"pointer", .QuasiKeyword⟩, ⟨" to ", .None⟩] .Singular).plurality =
      Explanation.new.plurality) :=
  ⟨⟨rfl, c2_plurality_propagation.1 Declarator.Anonymous none false _ rfl⟩,
   ⟨rfl, c2_plurality_propagation.2.1 Declarator.Anonymous DeclList.nil false _ rfl⟩,
   c2_plurality_propagation.2.2 Declarator.Anonymous TypeQualifiers.empty false _ _ rfl rfl⟩
theorem finish_impl_total (b : QualifiedType) (e : Explanation) :
    ∃ x, finish_impl b e = some x := by
  unfold finish_impl format_qualified_type
  cases hq : b.quals.isEmpty <;> cases hp : e.plurality <;>
    simp [hq, hp, Option.bind_eq_bind, Option.some_bind]

theorem finish_typedef_total (b : QualifiedType) (e : Explanation) :
    ∃ x, finish_typedef b e = some x := by
  unfold finish_typedef format_qualified_type
  cases hq : (b.quals.remove TypeQualifier.Typedef).isEmpty <;> cases hp : e.plurality <;>
    simp [hq, hp, Option.bind_eq_bind, Option.some_bind]

mutual
theorem explain_declarator_total (d : Declarator) (skip : Bool) :
    ∃ e, explain_declarator d skip = some e ∧
      (skip = false → e.plurality = Plurality.Plural → e.identifier_name = none) := by
  cases d with
  | Anonymous => exact ⟨Explanation.new, rfl, fun _ h => Plurality.noConfusion h⟩
  | Ident nm =>
    exact ⟨{ Explanation.new with identifier_name := some nm }, rfl,
      fun _ h => Plurality.noConfusion h⟩
  | Ptr inner quals =>
    obtain ⟨sub, hsub, hinv⟩ := explain_declarator_total inner skip
    rw [explain_declarator, hsub]
    simp only [Option.bind_eq_bind, Option.some_bind]
    cases skip <;> cases hn : sub.identifier_name <;>
      first
      | exact ⟨_, rfl, fun h _ => Bool.noConfusion h⟩
      | exact ⟨_, rfl, fun _ _ => rfl⟩
  | Array inner size =>
    obtain ⟨sub, hsub, hinv⟩ := explain_declarator_total inner skip
    rw [explain_declarator, hsub]
    simp only [Option.bind_eq_bind, Option.some_bind]
    cases skip <;> cases hn : sub.identifier_name <;>
      first
      | exact ⟨_, rfl, fun h _ => Bool.noConfusion h⟩
      | exact ⟨_, rfl, fun _ _ => rfl⟩
  | Function func params =>
    obtain ⟨sub, hsub, hinv⟩ := explain_declarator_total func skip
    obtain ⟨ms, hms⟩ := explain_params_total params
    rw [explain_declarator, hsub]
    simp only [Option.bind_eq_bind, Option.some_bind]
    cases skip with
    | true =>
      rw [hms]
      simp only [Option.bind_eq_bind, Option.some_bind]
      cases hp2 : sub.plurality <;>
        exact ⟨_, rfl, fun h _ => Bool.noConfusion h⟩
    | false =>
      cases hn : sub.identifier_name with
      | none =>
        rw [hms]
        simp only [Option.bind_eq_bind, Option.some_bind]
        cases hp2 : sub.plurality <;>
          exact ⟨_, rfl, fun _ h => Plurality.noConfusion h⟩
      | some n =>
        cases hp2 : sub.plurality with
        | Singular =>
          rw [hms]
          simp only [Option.bind_eq_bind, Option.some_bind]
          exact ⟨_, rfl, fun _ h => Plurality.noConfusion h⟩
        | Plural =>
          exact Option.noConfusion (hn.symm.trans (hinv rfl hp2))

theorem explain_params_total (l : DeclList) :
    ∃ ms, explain_params l = some ms := by
  cases l with
  | nil => exact ⟨[], rfl⟩
  | cons d t =>
    obtain ⟨m, hm⟩ := explain_declaration_total d
    obtain ⟨ms, hms⟩ := explain_params_total t
    exact ⟨m :: ms, by rw [explain_params, hm, hms]; rfl⟩

theorem explain_declaration_total (d : Declaration) :
    ∃ m, explain_declaration d = some m := by
  cases d with
  | mk base decl =>
    cases htd : base.quals.contains TypeQualifier.Typedef with
    | true =>
      obtain ⟨de, hde, -⟩ := explain_declarator_total decl true
      obtain ⟨x, hx⟩ := finish_typedef_total base de
      refine ⟨x.msg, ?_⟩
      rw [explain_declaration, htd]
      simp only [if_true, hde, Option.bind_eq_bind, Option.some_bind, hx]
    | false =>
      obtain ⟨ex, hex, -⟩ := explain_declarator_total decl false
      obtain ⟨x, hx⟩ := finish_impl_total base ex
      refine ⟨x.msg, ?_⟩
      rw [explain_declaration, htd]
      simp only [Bool.false_eq_true, if_false, hex, Option.bind_eq_bind, Option.some_bind, hx]
end

/-- C5: for every input that parses successfully, parse-then-explain is
deterministic (two runs agree) and total: every resulting declaration's
explanation is defined — the model returns `none` exactly where the Rust
explainer would abort (the `unreachable` arm, the `explain_typedef`
assertion, the base-type indexing), so this is the no-abort property. -/
theorem c5_parse_explain_deterministic_total :
    ∀ (src : String) (st : List String)
      (r₁ r₂ : Except (List Parser.RichError) (List Declaration) × List String),
      Parser.parseWithState src st = r₁ → Parser.parseWithState src st = r₂ →
      r₁ = r₂ ∧
      (∀ decls st', r₁ = (Except.ok decls, st') →
        ∀ d ∈ decls, ∃ m, explain_declaration d = some m) :=
  fun _ _ _ _ h1 h2 =>
    ⟨h1.symm.trans h2, fun _ _ _ d _ => explain_declaration_total d⟩

/-- C5 witness: the declaration parsed from "int x" has a defined explanation. -/
theorem c5_witness :
    (explain_declaration
      (Declaration.mk ⟨TypeQualifiers.empty, Ty.Primitive "int"⟩
        (Declarator.Ident "x"))).isSome = true := by
  obtain ⟨-, h⟩ := c5_parse_explain_deterministic_total "int x" [] _ _ rfl rfl
  obtain ⟨m, hm⟩ := h
    [Declaration.mk ⟨TypeQualifiers.empty, Ty.Primitive "int"⟩ (Declarator.Ident "x")] []
    rfl _ (List.mem_singleton.mpr rfl)
  rw [hm]; rfl

/-- Oversized digit runs make the array-size parser fail with the overflow
message spanning exactly the literal: helper facts used by the C8 theorem. -/
theorem takeWhile_digit_cons (d : Char) (rest : List Char) (hd : d.isDigit = true) :
    List.takeWhile Char.isDigit (d :: rest) = d :: List.takeWhile Char.isDigit rest := by
  simp [List.takeWhile_cons, hd]

/-- C8: an array-size integer literal exceeding the platform usize capacity is
a recoverable parse error (a returned error value, not an abort), located at
the literal with a span covering exactly the literal's digits, with message
"number too large to fit in target type" — stated for the array-size parser at
any position, and end-to-end for the repository's own oversized input. -/
theorem c8_array_size_overflow :
    (∀ (c : Parser.Cur) (a : Parser.Alt) (d : Char) (rest : List Char),
      c.rest = d :: rest → d.isDigit = true → d ≠ '0' →
      Parser.USIZE_MAX < Parser.digitsToNat (c.rest.takeWhile Char.isDigit) →
      Parser.pArraySize c a = .fail (Parser.addAlt a
        ⟨c.pos, c.pos, c.pos + (c.rest.takeWhile Char.isDigit).length,
         .custom "number too large to fit in target type"⟩)) ∧
    (Parser.parseWithState "int arr[184467440737095516150]" []).1 =
      Except.error [⟨8, 8, 29, .custom "number too large to fit in target type"⟩] ∧
    errorDisplays "int arr[184467440737095516150]" =
      ["at 8..29: number too large to fit in target type"] := by
  refine ⟨?_, rfl, rfl⟩
  intro c a d rest hrest hd hd0 hbig
  obtain ⟨crest, cpos⟩ := c
  simp only [Parser.Cur.rest] at hrest hbig
  subst hrest
  rw [takeWhile_digit_cons d rest hd] at hbig
  simp [Parser.pArraySize, Parser.pInt10, hd0, hd, Nat.not_le.mpr hbig]

/-- C8 witness: the overflow rule of the array-size parser applied at the
oversized literal of the repository's test, at offset 8. -/
theorem c8_witness :
    Parser.pArraySize ⟨"184467440737095516150]".toList, 8⟩ none = .fail (Parser.addAlt none
      ⟨8, 8, 8 + (("184467440737095516150]".toList).takeWhile Char.isDigit).length,
       .custom "number too large to fit in target type"⟩) :=
  c8_array_size_overflow.1 ⟨"184467440737095516150]".toList, 8⟩ none '1'
    "84467440737095516150]".toList rfl (by decide) (by decide) (by decide)

/-- Membership in an inserted qualifier set (`BitFlags` insertion). -/
theorem TypeQualifiers.insert_contains (q : TypeQualifiers) (hd t : TypeQualifier) :
    (q.insert hd).contains t = (q.contains t || decide (t = hd)) := by
  obtain ⟨c, v, r, td⟩ := q
  cases hd <;> cases t <;>
    simp [TypeQualifiers.insert, TypeQualifiers.contains]

/-- Membership after folding insertions over an encounter list. -/
theorem TypeQualifiers.foldl_insert_contains :
    ∀ (l : List TypeQualifier) (acc : TypeQualifiers) (t : TypeQualifier),
      (l.foldl TypeQualifiers.insert acc).contains t = (acc.contains t || decide (t ∈ l)) := by
  intro l
  induction l with
  | nil => intro acc t; simp
  | cons hd tl ih =>
    intro acc t
    simp only [List.foldl_cons, ih, TypeQualifiers.insert_contains, List.mem_cons,
      Bool.or_assoc]
    by_cases h1 : t = hd <;> by_cases h2 : t ∈ tl <;> simp [h1, h2]

/-- Qualifier sets with the same members are equal. -/
theorem TypeQualifiers.ext_contains (q₁ q₂ : TypeQualifiers)
    (h : ∀ t, q₁.contains t = q₂.contains t) : q₁ = q₂ := by
  obtain ⟨c1, v1, r1, t1⟩ := q₁
  obtain ⟨c2, v2, r2, t2⟩ := q₂
  have hc := h .Const
  have hv := h .Volatile
  have hr := h .Restrict
  have ht := h .Typedef
  simp only [TypeQualifiers.contains] at hc hv hr ht
  subst hc hv hr ht
  rfl

/-- C9: rendering a non-empty qualifier set joins the qualifier names with
single spaces in the fixed canonical order const, volatile, restrict; the set
collected from the source is independent of encounter order with duplicates
collapsed; and in an explanation the qualifier text is tagged `Qualifier`
followed by a separating space before the (tagged) qualified type. -/
theorem c9_qualifier_rendering :
    (∀ l₁ l₂ : List TypeQualifier, (∀ t, t ∈ l₁ ↔ t ∈ l₂) →
      TypeQualifiers.collect l₁ = TypeQualifiers.collect l₂) ∧
    (∀ q : TypeQualifiers, q.isEmpty = false → q.tdef = false →
      q.display = String.intercalate " "
        ((if q.const then ["const"] else []) ++
         (if q.volatile then ["volatile"] else []) ++
         (if q.restrict then ["restrict"] else []))) ∧
    (∀ qt : QualifiedType, qt.quals.isEmpty = false →
      format_qualified_type qt =
        [⟨qt.quals.display, Highlight.Qualifier⟩, ⟨" ", Highlight.None⟩,
         ⟨qt.ty.display,
          match qt.ty with
          | .Primitive _ => Highlight.PrimitiveType
          | _ => Highlight.UserDefinedType⟩]) := by
  refine ⟨?_, ?_, ?_⟩
  · intro l₁ l₂ h
    refine TypeQualifiers.ext_contains _ _ (fun t => ?_)
    simp only [TypeQualifiers.collect, TypeQualifiers.foldl_insert_contains]
    simp [h t]
  · intro q hne htd
    obtain ⟨c, v, r, td⟩ := q
    simp only [TypeQualifiers.tdef] at htd
    subst htd
    cases c <;> cases v <;> cases r <;> rfl
  · intro qt hne
    obtain ⟨q, ty⟩ := qt
    simp only [format_qualified_type, hne]
    cases ty <;> simp [hne]

/-- C9 witness: the rendering rules at a concrete qualifier set — the
encounter orders [restrict, const, const] and [const, restrict] collect to the
same set, which renders "const restrict" and formats with the `Qualifier` tag
and separating space. -/
theorem c9_witness :
    TypeQualifiers.collect [TypeQualifier.Restrict, TypeQualifier.Const, TypeQualifier.Const] =
      TypeQualifiers.collect [TypeQualifier.Const, TypeQualifier.Restrict] ∧
    (TypeQualifiers.mk true false true false).display = "const restrict" ∧
    format_qualified_type ⟨⟨true, false, true, false⟩, Ty.Primitive "int"⟩ =
      [⟨"const restrict", Highlight.Qualifier⟩, ⟨" ", Highlight.None⟩,
       ⟨"int", Highlight.PrimitiveType⟩] :=
  ⟨c9_qualifier_rendering.1 _ _ (fun t => by cases t <;> simp),
   (c9_qualifier_rendering.2.1 ⟨true, false, true, false⟩ rfl rfl).trans rfl,
   (c9_qualifier_rendering.2.2 ⟨⟨true, false, true, false⟩, Ty.Primitive "int"⟩ rfl).trans rfl⟩

end C2e

namespace C2e

/-- The registry entry a declaration contributes: its declared name when it is
a typedef declaration, nothing otherwise. -/
def typedefName (d : Declaration) : Option String :=
  if d.base_type.quals.contains TypeQualifier.Typedef then d.declarator.name else none

namespace Parser

theorem pmap_ok {α β : Type} (f : α → β) (p : P α) (c : Cur) (a : Alt) (v : β)
    (c' : Cur) (a' : Alt) (h : pmap f p c a = .ok v c' a') :
    ∃ w, p c a = .ok w c' a' ∧ v = f w := by
  unfold pmap at h
  cases hp : p c a with
  | ok w c0 a0 =>
    rw [hp] at h
    injection h with h1 h2 h3
    subst h2; subst h3
    exact ⟨w, rfl, h1.symm⟩
  | fail a0 => rw [hp] at h; exact PResult.noConfusion h

theorem padded_ok {α : Type} (p : P α) (c : Cur) (a : Alt) (v : α) (c' : Cur) (a' : Alt)
    (h : padded p c a = .ok v c' a') :
    ∃ c0, p (skipWs c) a = .ok v c0 a' := by
  unfold padded at h
  cases hp : p (skipWs c) a with
  | ok w c0 a0 =>
    rw [hp] at h
    injection h with h1 h2 h3
    subst h1; subst h3
    exact ⟨c0, rfl⟩
  | fail a0 => rw [hp] at h; exact PResult.noConfusion h

theorem pthen_ok {α β : Type} (p : P α) (q : P β) (c : Cur) (a : Alt) (v : α × β)
    (c' : Cur) (a' : Alt) (h : pthen p q c a = .ok v c' a') :
    ∃ c1 a1, p c a = .ok v.1 c1 a1 ∧ q c1 a1 = .ok v.2 c' a' := by
  unfold pthen at h
  cases hp : p c a with
  | ok w c1 a1 =>
    simp only [hp] at h
    cases hq2 : q c1 a1 with
    | ok u c2 a2 =>
      simp only [hq2] at h
      injection h with h1 h2 h3
      subst h2; subst h3; subst h1
      exact ⟨c1, a1, rfl, hq2⟩
    | fail a2 => simp only [hq2] at h; exact PResult.noConfusion h
  | fail a1 => simp only [hp] at h; exact PResult.noConfusion h

theorem labelled_ok {α : Type} (lbl : String) (p : P α) (c : Cur) (a : Alt) (v : α)
    (c' : Cur) (a' : Alt) (h : labelled lbl p c a = .ok v c' a') :
    ∃ a0, p c none = .ok v c' a0 := by
  unfold labelled at h
  cases hp : p c none with
  | ok w c0 a0 =>
    simp only [hp] at h
    injection h with h1 h2 h3
    subst h1; subst h2
    exact ⟨a0, rfl⟩
  | fail a0 => simp only [hp] at h; exact PResult.noConfusion h

theorem choice_ok {α : Type} (ps : List (P α)) (c : Cur) (a : Alt) (v : α)
    (c' : Cur) (a' : Alt) (h : choice ps c a = .ok v c' a') :
    ∃ p ∈ ps, ∃ a0 a1, p c a0 = .ok v c' a1 := by
  induction ps generalizing a with
  | nil => unfold choice at h; exact PResult.noConfusion h
  | cons p rest ih =>
    unfold choice at h
    cases hp : p c a with
    | ok w c0 a0 =>
      simp only [hp] at h
      injection h with h1 h2 h3
      subst h1; subst h2
      exact ⟨p, by simp, a, a0, hp⟩
    | fail a0 =>
      simp only [hp] at h
      obtain ⟨pp, hmem, aa, aa1, hh⟩ := ih a0 h
      exact ⟨pp, by simp [hmem], aa, aa1, hh⟩

theorem pQualifierOne_ok (c : Cur) (a : Alt) (tq : TypeQualifier) (c' : Cur) (a' : Alt)
    (h : pQualifierOne c a = .ok tq c' a') : tq ≠ TypeQualifier.Typedef := by
  obtain ⟨c0, h1⟩ := padded_ok _ _ _ _ _ _ h
  obtain ⟨a0, h2⟩ := labelled_ok _ _ _ _ _ _ _ h1
  obtain ⟨p, hmem, a1, a2, h3⟩ := choice_ok _ _ _ _ _ _ h2
  simp only [List.mem_cons, List.not_mem_nil, or_false] at hmem
  rcases hmem with rfl | rfl | rfl <;>
    · obtain ⟨w, -, hv⟩ := pmap_ok _ _ _ _ _ _ _ h3
      subst hv
      decide

theorem pQualifiersLoop_tdef :
    ∀ (n : Nat) (q : TypeQualifiers) (c : Cur) (a : Alt) (r : TypeQualifiers)
      (c' : Cur) (a' : Alt),
      pQualifiersLoop n q c a = .ok r c' a' → r.tdef = q.tdef := by
  intro n
  induction n with
  | zero =>
    intro q c a r c' a' h
    unfold pQualifiersLoop at h
    injection h with h1 h2 h3
    subst h1; rfl
  | succ m ih =>
    intro q c a r c' a' h
    unfold pQualifiersLoop at h
    cases hq : pQualifierOne c a with
    | ok tq c0 a0 =>
      rw [hq] at h
      have hrec := ih _ _ _ _ _ _ h
      have hne := pQualifierOne_ok c a tq c0 a0 hq
      rw [hrec]
      cases tq with
      | Typedef => exact absurd rfl hne
      | Const => obtain ⟨cc, vv, rr, tt⟩ := q; rfl
      | Volatile => obtain ⟨cc, vv, rr, tt⟩ := q; rfl
      | Restrict => obtain ⟨cc, vv, rr, tt⟩ := q; rfl
    | fail a0 =>
      rw [hq] at h
      injection h with h1 h2 h3
      subst h1; rfl

theorem pQualifiers_tdef (c : Cur) (a : Alt) (r : TypeQualifiers) (c' : Cur) (a' : Alt)
    (h : pQualifiers c a = .ok r c' a') : r.tdef = false := by
  unfold pQualifiers at h
  exact pQualifiersLoop_tdef _ _ _ _ _ _ _ h

theorem pQualifiedType_tdef (st : List String) (c : Cur) (a : Alt) (qt : QualifiedType)
    (c' : Cur) (a' : Alt) (h : pQualifiedType st c a = .ok qt c' a') :
    qt.quals.tdef = false := by
  obtain ⟨w, hw, hv⟩ := pmap_ok _ _ _ _ _ _ _ h
  obtain ⟨c1, a1, hq, -⟩ := pthen_ok _ _ _ _ _ _ _ hw
  subst hv
  exact pQualifiers_tdef _ _ _ _ _ hq

theorem pDeclaration_tdef :
    ∀ (fuel : Nat) (st : List String) (c : Cur) (a : Alt) (d : Declaration)
      (c' : Cur) (a' : Alt),
      pDeclaration fuel st c a = .ok d c' a' → d.base_type.quals.tdef = false := by
  intro fuel st c a d c' a' h
  cases fuel with
  | zero => exact PResult.noConfusion h
  | succ n =>
    rw [pDeclaration] at h
    obtain ⟨c0, hin⟩ := padded_ok _ _ _ _ _ _ h
    obtain ⟨w, hw, hv⟩ := pmap_ok _ _ _ _ _ _ _ hin
    obtain ⟨c1, a1, hq, -⟩ := pthen_ok _ _ _ _ _ _ _ hw
    subst hv
    exact pQualifiedType_tdef _ _ _ _ _ _ hq

theorem pTypedefItem_state (fuel : Nat) (st : List String) (c : Cur) (a : Alt)
    (d : Declaration) (st' : List String) (c' : Cur) (a' : Alt)
    (h : pTypedefItem fuel st c a = .ok (d, st') c' a') :
    st' = st ++ (typedefName d).toList ∧
      d.base_type.quals.contains TypeQualifier.Typedef = true := by
  unfold pTypedefItem at h
  cases hk : padded (pKeyword "typedef") c a with
  | fail a1 => simp only [hk] at h; exact PResult.noConfusion h
  | ok u c1 a1 =>
    simp only [hk] at h
    cases hd : pDeclaration fuel st c1 a1 with
    | fail a2 => simp only [hd] at h; exact PResult.noConfusion h
    | ok d0 c2 a2 =>
      simp only [hd] at h
      cases d0 with
      | mk bt dec =>
        cases hn : dec.name with
        | some nm =>
          simp only [hn] at h
          injection h with h1 h2 h3
          rw [Prod.mk.injEq] at h1
          obtain ⟨hd1, hs1⟩ := h1
          subst hd1; subst hs1
          obtain ⟨bq, bty⟩ := bt
          constructor
          · simp [typedefName, Declaration.base_type, Declaration.declarator,
              TypeQualifiers.insert, TypeQualifiers.contains, hn]
          · simp [Declaration.base_type, TypeQualifiers.insert, TypeQualifiers.contains]
        | none =>
          simp only [hn] at h
          injection h with h1 h2 h3
          rw [Prod.mk.injEq] at h1
          obtain ⟨hd1, hs1⟩ := h1
          subst hd1; subst hs1
          obtain ⟨bq, bty⟩ := bt
          constructor
          · simp [typedefName, Declaration.base_type, Declaration.declarator,
              TypeQualifiers.insert, TypeQualifiers.contains, hn]
          · simp [Declaration.base_type, TypeQualifiers.insert, TypeQualifiers.contains]

theorem pItem_state (fuel : Nat) (st : List String) (c : Cur) (a : Alt)
    (d : Declaration) (st' : List String) (c' : Cur) (a' : Alt)
    (h : pItem fuel st c a = .ok (d, st') c' a') :
    st' = st ++ (typedefName d).toList := by
  unfold pItem at h
  cases ht : pTypedefItem fuel st c a with
  | ok r c1 a1 =>
    simp only [ht] at h
    injection h with h1 h2 h3
    subst h2; subst h3
    subst h1
    exact (pTypedefItem_state _ _ _ _ _ _ _ _ ht).1
  | fail a1 =>
    simp only [ht] at h
    cases hd : pDeclaration fuel st c a1 with
    | ok d0 c1 a2 =>
      simp only [hd] at h
      injection h with h1 h2 h3
      rw [Prod.mk.injEq] at h1
      obtain ⟨hd1, hs1⟩ := h1
      subst hd1; subst hs1
      have htd := pDeclaration_tdef _ _ _ _ _ _ _ hd
      simp [typedefName, TypeQualifiers.contains, htd]
    | fail a2 => simp only [hd] at h; exact PResult.noConfusion h

theorem pItemsLoop_state :
    ∀ (n : Nat) (st : List String) (acc : List Declaration) (c : Cur) (a : Alt),
      ∃ nd, (pItemsLoop n st acc c a).1 = acc ++ nd ∧
        (pItemsLoop n st acc c a).2.2.2 = st ++ nd.filterMap typedefName := by
  intro n
  induction n with
  | zero => intro st acc c a; exact ⟨[], by simp [pItemsLoop], by simp [pItemsLoop]⟩
  | succ m ih =>
    intro st acc c a
    unfold pItemsLoop
    cases hs : pSemis c a with
    | fail a1 => exact ⟨[], by simp, by simp⟩
    | ok u c1 a1 =>
      cases hi : pItem m st c1 a1 with
      | ok r c2 a2 =>
        cases r with
        | mk d st1 =>
          obtain ⟨nd, h1, h2⟩ := ih st1 (acc ++ [d]) c2 a2
          refine ⟨d :: nd, ?_, ?_⟩
          · simp only [hi]
            rw [h1]
            simp
          · simp only [hi]
            rw [h2, pItem_state m st c1 a1 d st1 c2 a2 hi]
            cases htn : typedefName d <;> simp [htn, List.filterMap_cons]
      | fail a2 =>
        refine ⟨[], ?_, ?_⟩
        · simp only [hi]
          simp
        · simp only [hi]
          simp

theorem pItemsFirst_state (fuel : Nat) (st : List String) (c : Cur) (a : Alt) :
    ∃ nd, (pItemsFirst fuel st c a).1 = nd ∧
      (pItemsFirst fuel st c a).2.2.2 = st ++ nd.filterMap typedefName := by
  unfold pItemsFirst
  cases hi : pItem fuel st c a with
  | ok r c1 a1 =>
    cases r with
    | mk d st1 =>
      obtain ⟨nd, h1, h2⟩ := pItemsLoop_state fuel st1 [d] c1 a1
      refine ⟨d :: nd, ?_, ?_⟩
      · rw [h1]
        simp
      · rw [h2, pItem_state fuel st c a d st1 c1 a1 hi]
        cases htn : typedefName d <;> simp [htn, List.filterMap_cons]
  | fail a1 => exact ⟨[], rfl, by simp⟩

theorem parseWithState_snd (src : String) (st : List String) :
    (parseWithState src st).2 =
      (pItemsFirst (src.toList.length * 8 + 64) st ⟨src.toList, 0⟩ none).2.2.2 := by
  simp only [parseWithState]
  generalize pItemsFirst (src.toList.length * 8 + 64) st ⟨src.toList, 0⟩ none = r
  obtain ⟨decls, c, a2, st2⟩ := r
  obtain ⟨rest, pos⟩ := c
  cases rest with
  | nil => rfl
  | cons ch t =>
    simp only []
    cases addAlt a2 ⟨pos, pos, pos + 1, .expectedFound [.endOfInput] (some ch)⟩ <;> rfl

theorem parseWithState_fst_ok (src : String) (st : List String) (decls : List Declaration)
    (h : (parseWithState src st).1 = Except.ok decls) :
    (pItemsFirst (src.toList.length * 8 + 64) st ⟨src.toList, 0⟩ none).1 = decls := by
  simp only [parseWithState] at h
  generalize hr : pItemsFirst (src.toList.length * 8 + 64) st ⟨src.toList, 0⟩ none = r at h ⊢
  obtain ⟨ds, c, a2, st2⟩ := r
  obtain ⟨rest, pos⟩ := c
  cases rest with
  | nil => exact (Except.ok.injEq _ _).mp h
  | cons ch t =>
    simp only [] at h
    cases haa : addAlt a2 ⟨pos, pos, pos + 1, .expectedFound [.endOfInput] (some ch)⟩ <;>
      simp only [haa] at h <;> exact Except.noConfusion h

end Parser

/-- C10: registry growth — `parse_with_state` never removes entries from the
custom-type registry: the resulting registry is always the input registry
with some list appended, and on a successful parse that appended list is
exactly the names of the parsed typedef declarations (those whose base type
carries the `Typedef` qualifier), in order. -/
theorem c10_registry_growth (src : String) (st : List String) :
    (∃ l, (Parser.parseWithState src st).2 = st ++ l) ∧
    (∀ decls, (Parser.parseWithState src st).1 = Except.ok decls →
      (Parser.parseWithState src st).2 = st ++ decls.filterMap typedefName) := by
  obtain ⟨nd, h1, h2⟩ :=
    Parser.pItemsFirst_state (src.toList.length * 8 + 64) st ⟨src.toList, 0⟩ none
  constructor
  · exact ⟨nd.filterMap typedefName, by rw [Parser.parseWithState_snd, h2]⟩
  · intro decls hd
    have hdecls := Parser.parseWithState_fst_ok src st decls hd
    rw [Parser.parseWithState_snd, h2, ← h1, hdecls]

/-- C10 witness: parsing `"typedef int foo"` from the empty registry yields the
single typedef declaration of `foo`, and the resulting registry is the empty
registry extended with exactly that declaration's typedef name. -/
theorem c10_witness :
    (Parser.parseWithState "typedef int foo" []).2 =
      [] ++ [Declaration.mk ⟨⟨false, false, false, true⟩, Ty.Primitive "int"⟩
               (Declarator.Ident "foo")].filterMap typedefName :=
  (c10_registry_growth "typedef int foo" []).2
    [Declaration.mk ⟨⟨false, false, false, true⟩, Ty.Primitive "int"⟩ (Declarator.Ident "foo")]
    rfl

end C2e
